import Mathlib

/-!
# Verification of the CloudUnify Pro seeding/upsert pipeline

Shallow embedding of the seed service in `Backend/src/app.js` (the seeding
service: `validateAndNormalize`, the chunked upserts, `seedEntity`) and of the
HTTP controller `Backend/src/controllers/seed.js` (`seedOne`), together with
theorems settling the specification claims about that pipeline.

Modelling conventions:
* JavaScript field values are modelled by `JVal`, covering the cases the code
  distinguishes (`undefined`, `null`, strings, numbers, booleans, plain
  objects, arrays) with JS truthiness and `typeof` tests made explicit.
* `crypto.randomUUID()` is modelled by a deterministic supply `genUUID` indexed
  by a counter that every id-generating step threads and bumps; distinct
  counters give distinct, syntactically valid version-4 UUID strings.
* `bcrypt.hashSync` is an external hashing service; it is modelled by an
  abstract tagging function `bcryptHash`.
* PostgreSQL tables are lists of typed rows; `INSERT .. ON CONFLICT .. DO
  UPDATE .. RETURNING (xmax = 0)` is modelled row by row: a conflicting row is
  updated per the statement's SET list, a non-conflicting row is appended, and
  the secondary uniqueness constraints of the schema (`organizations.name`,
  `users.email`, the primary keys, the `resources.provider` CHECK) raise a
  `StoreErr`, as does affecting the same row twice within one statement.
* Numbers are modelled over `Int`; `Number(..)` coercion of non-numeric values
  and date-string parsing are elided (`none`), which no claim depends on.
-/

/-- A JavaScript value as the seeding code discriminates them: `undefined`,
`null`, string, (integer) number, boolean, plain object (`tags` maps keys to
strings), array. -/
inductive JVal where
  | vundef : JVal
  | vnull : JVal
  | vstr (s : String) : JVal
  | vnum (n : Int) : JVal
  | vbool (b : Bool) : JVal
  | vobj (fields : List (String × String)) : JVal
  | varr : JVal
  deriving DecidableEq, Repr, Inhabited

namespace JVal

/-- JS truthiness of a `JVal` (`undefined`, `null`, `""`, `0`, `false` are
falsy; objects and arrays are truthy). -/
def truthy : JVal → Bool
  | .vundef => false
  | .vnull => false
  | .vstr s => !s.toList.isEmpty
  | .vnum n => !(n == 0)
  | .vbool b => b
  | .vobj _ => true
  | .varr => true

/-- JS test `typeof v === 'string'`. -/
def isStr : JVal → Bool
  | .vstr _ => true
  | _ => false

/-- The carried string, defaulting to `""` for non-strings (only read after an
`isStr` test succeeded). -/
def str : JVal → String
  | .vstr s => s
  | _ => ""

/-- Model of `Number(v)` restricted to the cases the model distinguishes; `none` is
NaN. String/array numeric coercion is elided (no claim depends on `cost`). -/
def jsNumber : JVal → Option Int
  | .vnum n => some n
  | .vbool b => some (if b then 1 else 0)
  | .vnull => some 0
  | _ => none

end JVal

/-- Hexadecimal digit test (`[0-9a-fA-F]`). -/
def isHexChar (c : Char) : Bool :=
  (48 ≤ c.toNat && c.toNat ≤ 57) || (97 ≤ c.toNat && c.toNat ≤ 102) ||
    (65 ≤ c.toNat && c.toNat ≤ 70)

/-- Split a character list on a single separator character (the semantics of
`String.splitOn` for a one-character separator, as used with `"-"` and
`"@"`). -/
def splitOnChar (sep : Char) : List Char → List (List Char)
  | [] => [[]]
  | c :: rest =>
    let r := splitOnChar sep rest
    if c == sep then [] :: r
    else
      match r with
      | [] => [[c]]
      | grp :: gs => (c :: grp) :: gs

/-- All characters of a group are hex digits. -/
def allHex (l : List Char) : Bool := l.all isHexChar

/-- First character of a group satisfies `p` (empty group fails). -/
def firstCharIs (l : List Char) (p : Char → Bool) : Bool :=
  match l with
  | [] => false
  | c :: _ => p c

/-- Model of `isUUIDv4` from `app.js`: the regex
`^[0-9a-f]{8}-[0-9a-f]{4}-4[0-9a-f]{3}-[89ab][0-9a-f]{3}-[0-9a-f]{12}$/i`,
expressed over the dash-separated groups (hex digits contain no dash, so the
group decomposition is exactly the regex's). -/
def isUUIDv4 (s : String) : Bool :=
  match splitOnChar '-' s.toList with
  | [a, b, c, d, e] =>
    a.length == 8 && b.length == 4 && c.length == 4 && d.length == 4 &&
    e.length == 12 && allHex a && allHex b && allHex c && allHex d && allHex e &&
    firstCharIs c (fun x => x == '4') &&
    firstCharIs d (fun x => x == '8' || x == '9' || x == 'a' || x == 'b' ||
      x == 'A' || x == 'B')
  | _ => false

/-- ASCII whitespace (the `\s` class of the email regex; rare Unicode space
code points are not modelled). -/
def isWsChar (c : Char) : Bool :=
  c == ' ' || c == '\t' || c == '\n' || c == '\r' || c == '\x0b' || c == '\x0c'

/-- No whitespace anywhere in the group. -/
def noWs (l : List Char) : Bool := l.all (fun c => !isWsChar c)

/-- A dot occurs at some position that is neither the first nor the last
character, i.e. the list decomposes as `b ++ [.] ++ c` with `b c` nonempty. -/
def innerDotAux : List Char → Bool
  | [] => false
  | [_] => false
  | c :: rest => c == '.' || innerDotAux rest

/-- Inner-dot test on the domain part of an email candidate. -/
def innerDot : List Char → Bool
  | [] => false
  | _ :: rest => innerDotAux rest

/-- The basic email regex `^[^\s@]+@[^\s@]+\.[^\s@]+$` of `isEmail` in
`app.js`: exactly one `@`, nonempty whitespace-free local part, and a domain
part that is whitespace-free and decomposes around an inner dot. -/
def emailLike (s : String) : Bool :=
  match splitOnChar '@' s.toList with
  | [a, r] => !a.isEmpty && noWs a && noWs r && innerDot r
  | _ => false

/-- Model of `isEmail` from `app.js`: `typeof str === 'string'` plus the regex. -/
def isEmail (v : JVal) : Bool :=
  match v with
  | .vstr s => emailLike s
  | _ => false

/-- One lowercase hex digit. -/
def hexDigit (n : Nat) : Char :=
  if n < 10 then Char.ofNat (48 + n) else Char.ofNat (87 + n)

/-- Twelve-digit lowercase hex rendering of a counter. -/
def hex12 (n : Nat) : String :=
  ⟨(List.range 12).map fun i => hexDigit (n / 16 ^ (11 - i) % 16)⟩

/-- Model of `crypto.randomUUID()`: the `n`-th fresh identifier. Each call
site threads and bumps the counter, so successive calls give distinct,
syntactically valid version-4 UUID strings. -/
def genUUID (n : Nat) : String :=
  "00000000-0000-4000-8000-" ++ hex12 n

/-- The test `obj.id && typeof obj.id === 'string' && isUUIDv4(obj.id)` the
code uses for a usable supplied identifier (shared by `id` and
`organizationId` handling). -/
def validIdField (v : JVal) : Bool :=
  v.truthy && v.isStr && isUUIDv4 v.str

/-- Negation of `!v || typeof v !== 'string'`: a truthy string, the test used for
required string fields (`name`, `role`, `type`, ...). -/
def strFieldOk (v : JVal) : Bool :=
  v.truthy && v.isStr

/-- Model of `toISODateOrNow` from `app.js` over integer timestamps: falsy input or an
unparseable value yields `now`. Date-string parsing is elided (no claim
depends on `createdAt` values). -/
def toISODateOrNow (now : Int) (v : JVal) : Int :=
  if v.truthy then
    match v with
    | .vnum n => n
    | _ => now
  else now

/-- Model of the external hashing service `bcrypt.hashSync(p, 10)`: an abstract
injective tagging of the plaintext. -/
def bcryptHash (p : String) : String := "bcrypt10$" ++ p

/-- A raw JSON record as the normalizer reads it: every field of any object
the code ever dereferences, absent fields being `undefined`. A non-object
array element (`rec || {}` with `rec` falsy or scalar) dereferences every
field to `undefined` and so behaves as the all-`vundef` record. -/
structure RawRecord where
  id : JVal := .vundef
  name : JVal := .vundef
  email : JVal := .vundef
  role : JVal := .vundef
  organizationId : JVal := .vundef
  createdAt : JVal := .vundef
  password : JVal := .vundef
  passwordHash : JVal := .vundef
  provider : JVal := .vundef
  type : JVal := .vundef
  tags : JVal := .vundef
  cost : JVal := .vundef
  status : JVal := .vundef
  deriving DecidableEq, Repr, Inhabited

/-- One entry of the `errors` list: `{ index, error }`. -/
structure NormErr where
  index : Int
  error : String
  deriving DecidableEq, Repr

/-- A normalized organization record. -/
structure OrgRec where
  id : String
  name : String
  createdAt : Int
  deriving DecidableEq, Repr

/-- A normalized user record (ids are deferred for users: `id` is `some` only
when the input carried a valid v4 UUID, recorded in `hadId`). -/
structure UserRec where
  id : Option String
  email : String
  name : String
  role : String
  organizationId : Option String
  createdAt : Int
  hadId : Bool
  password : Option String
  passwordHash : Option String
  deriving DecidableEq, Repr

/-- A normalized resource record. -/
structure ResRec where
  id : String
  provider : String
  type : String
  name : String
  tags : List (String × String)
  cost : Int
  status : String
  createdAt : Int
  deriving DecidableEq, Repr

/-- Normalize one organization record (the body of the `organizations`
`forEach` in `validateAndNormalize`): the id ternary runs first — a missing or
invalid id consumes a fresh UUID even if the record is later rejected — then
`name` is checked. -/
def normOrg (now : Int) (g : Nat) (rv : RawRecord) :
    Except String OrgRec × Nat :=
  let idg : String × Nat :=
    if validIdField rv.id then (rv.id.str, g) else (genUUID g, g + 1)
  if strFieldOk rv.name then
    (.ok ⟨idg.1, rv.name.str, toISODateOrNow now rv.createdAt⟩, idg.2)
  else
    (.error "Invalid organization.name", idg.2)

/-- Normalize one user record (the body of the `users` `forEach`): no id is
generated here — `hadId` records whether a valid v4 UUID id was supplied, an
invalid `organizationId` is coerced to `null`, `password`/`passwordHash` are
kept only when they are strings, and `email`, `name`, `role` are checked in
that order, reporting only the first failure. The UUID counter is untouched. -/
def normUser (now : Int) (g : Nat) (rv : RawRecord) :
    Except String UserRec × Nat :=
  let hadId := validIdField rv.id
  if isEmail rv.email then
    if strFieldOk rv.name then
      if strFieldOk rv.role then
        (.ok
          { id := if hadId then some rv.id.str else none
            email := rv.email.str
            name := rv.name.str
            role := rv.role.str
            organizationId :=
              if validIdField rv.organizationId then
                some rv.organizationId.str
              else none
            createdAt := toISODateOrNow now rv.createdAt
            hadId := hadId
            password := if rv.password.isStr then some rv.password.str else none
            passwordHash :=
              if rv.passwordHash.isStr then some rv.passwordHash.str else none },
          g)
      else (.error "Invalid user.role", g)
    else (.error "Invalid user.name", g)
  else (.error "Invalid user.email", g)

/-- The closed provider set of `validateAndNormalize` for resources. -/
def allowedProviders : List String := ["AWS", "Azure", "GCP"]

/-- Normalize one resource record (the body of the `resources` `forEach`):
the id ternary runs first (consuming a fresh UUID when no valid id was
supplied, even for records later rejected), `tags` defaults to the empty
object unless a plain object was given, non-finite `cost` coerces to `0`, and
`provider`, `type`, `name`, `status` are checked in that order. -/
def normRes (now : Int) (g : Nat) (rv : RawRecord) :
    Except String ResRec × Nat :=
  let idg : String × Nat :=
    if validIdField rv.id then (rv.id.str, g) else (genUUID g, g + 1)
  let providerOk :=
    rv.provider.isStr && rv.provider.truthy &&
      allowedProviders.contains rv.provider.str
  if providerOk then
    if strFieldOk rv.type then
      if strFieldOk rv.name then
        if rv.status.isStr && rv.status.truthy then
          (.ok
            { id := idg.1
              provider := rv.provider.str
              type := rv.type.str
              name := rv.name.str
              tags := match rv.tags with | .vobj fs => fs | _ => []
              cost := match rv.cost.jsNumber with | some n => n | none => 0
              status := rv.status.str
              createdAt := toISODateOrNow now rv.createdAt },
            idg.2)
        else (.error "Invalid resource.status", idg.2)
      else (.error "Invalid resource.name", idg.2)
    else (.error "Invalid resource.type", idg.2)
  else
    (.error "Invalid resource.provider (must be \x27AWS\x27|\x27Azure\x27|\x27GCP\x27)",
      idg.2)

/-- The records argument of `validateAndNormalize`: either not an array
(`!Array.isArray(records)`) or an array of records. -/
inductive RecordsPayload where
  | notArray : RecordsPayload
  | arr (records : List RawRecord) : RecordsPayload
  deriving DecidableEq, Repr

/-- The structural error produced for a non-array payload. -/
def payloadNotArrayErr : NormErr := ⟨-1, "Records payload must be an array"⟩

/-- The `organizations` `forEach` of `validateAndNormalize`: walk the records
with their index, threading the UUID counter; each record lands in exactly one
of the valid list or the error list. -/
def vOrgsGo (now : Int) (idx : Int) (g : Nat) :
    List RawRecord → List OrgRec × List NormErr × Nat
  | [] => ([], [], g)
  | rv :: rest =>
    match normOrg now g rv with
    | (.ok rec, g') =>
      let r := vOrgsGo now (idx + 1) g' rest
      (rec :: r.1, r.2.1, r.2.2)
    | (.error m, g') =>
      let r := vOrgsGo now (idx + 1) g' rest
      (r.1, ⟨idx, m⟩ :: r.2.1, r.2.2)

/-- Model of `validateAndNormalize('organizations', records)`. -/
def validateAndNormalizeOrganizations (now : Int) (g : Nat) :
    RecordsPayload → List OrgRec × List NormErr × Nat
  | .notArray => ([], [payloadNotArrayErr], g)
  | .arr l => vOrgsGo now 0 g l

/-- The `users` `forEach` of `validateAndNormalize`. -/
def vUsersGo (now : Int) (idx : Int) (g : Nat) :
    List RawRecord → List UserRec × List NormErr × Nat
  | [] => ([], [], g)
  | rv :: rest =>
    match normUser now g rv with
    | (.ok rec, g') =>
      let r := vUsersGo now (idx + 1) g' rest
      (rec :: r.1, r.2.1, r.2.2)
    | (.error m, g') =>
      let r := vUsersGo now (idx + 1) g' rest
      (r.1, ⟨idx, m⟩ :: r.2.1, r.2.2)

/-- Model of `validateAndNormalize('users', records)`. -/
def validateAndNormalizeUsers (now : Int) (g : Nat) :
    RecordsPayload → List UserRec × List NormErr × Nat
  | .notArray => ([], [payloadNotArrayErr], g)
  | .arr l => vUsersGo now 0 g l

/-- The `resources` `forEach` of `validateAndNormalize`. -/
def vResGo (now : Int) (idx : Int) (g : Nat) :
    List RawRecord → List ResRec × List NormErr × Nat
  | [] => ([], [], g)
  | rv :: rest =>
    match normRes now g rv with
    | (.ok rec, g') =>
      let r := vResGo now (idx + 1) g' rest
      (rec :: r.1, r.2.1, r.2.2)
    | (.error m, g') =>
      let r := vResGo now (idx + 1) g' rest
      (r.1, ⟨idx, m⟩ :: r.2.1, r.2.2)

/-- Model of `validateAndNormalize('resources', records)`. -/
def validateAndNormalizeResources (now : Int) (g : Nat) :
    RecordsPayload → List ResRec × List NormErr × Nat
  | .notArray => ([], [payloadNotArrayErr], g)
  | .arr l => vResGo now 0 g l

/-- The slicing loop of `chunkArray`, with its iteration count bounded by a
structural fuel argument (each iteration consumes at least one element, so
the list's length is enough fuel; the fuel exists only to make the recursion
structural). -/
def chunkArrayGo {α : Type} : Nat → List α → Nat → List (List α)
  | 0, _, _ => []
  | _ + 1, [], _ => []
  | _ + 1, _ :: _, 0 => []
  | fuel + 1, x :: xs, n + 1 =>
    (x :: xs).take (n + 1) :: chunkArrayGo fuel ((x :: xs).drop (n + 1)) (n + 1)

/-- Model of `chunkArray` from `app.js` (slicing loop; size `0` never occurs — the
callers pass `100`). -/
def chunkArray {α : Type} (l : List α) (n : Nat) : List (List α) :=
  chunkArrayGo l.length l n

/-- A row of the `organizations` table. -/
structure OrgRow where
  id : String
  name : String
  created_at : Int
  deriving DecidableEq, Repr

/-- A row of the `users` table. -/
structure UserRow where
  id : String
  email : String
  name : String
  role : String
  organization_id : Option String
  created_at : Int
  password_hash : Option String
  deriving DecidableEq, Repr

/-- A row of the `resources` table. -/
structure ResRow where
  id : String
  provider : String
  type : String
  name : String
  tags : List (String × String)
  cost : Int
  status : String
  created_at : Int
  deriving DecidableEq, Repr

/-- The store (tables created by `ensureSchema`; in the model the schema is
the row types, so `ensureSchema()` is the identity). -/
structure DB where
  orgs : List OrgRow
  users : List UserRow
  resources : List ResRow
  deriving DecidableEq, Repr

/-- The empty store. -/
def emptyDB : DB := ⟨[], [], []⟩

/-- An error raised by the store while executing an upsert statement:
violation of a uniqueness/not-null/CHECK constraint not arbitrated by the
`ON CONFLICT` clause, or the Postgres "ON CONFLICT DO UPDATE command cannot
affect row a second time" error. -/
inductive StoreErr where
  | uniqueViolation (constraintName : String) : StoreErr
  | notNullViolation (columnName : String) : StoreErr
  | checkViolation (constraintName : String) : StoreErr
  | affectRowTwice : StoreErr
  deriving DecidableEq, Repr

/-- The clause `SET name = EXCLUDED.name` of the organizations upsert conflict branch. -/
def orgConflictUpdate (row : OrgRow) (r : OrgRec) : OrgRow :=
  { row with name := r.name }

/-- One batched `INSERT .. ON CONFLICT (id) DO UPDATE` statement of
`upsertOrganizations`, row by row: `aff` is the set of row ids already
affected by this statement, `ins`/`upd` the `(xmax = 0)` classification
counts. A row whose `name` collides with a different row violates the
`organizations.name` UNIQUE constraint. -/
def orgStmt (db : List OrgRow) (aff : List String) (ins upd : Nat) :
    List OrgRec → Except StoreErr (List OrgRow × Nat × Nat)
  | [] => .ok (db, ins, upd)
  | r :: rest =>
    match db.find? (fun w => w.id == r.id) with
    | some row =>
      if aff.contains row.id then .error .affectRowTwice
      else if db.any (fun w => !(w.id == r.id) && w.name == r.name) then
        .error (.uniqueViolation "organizations_name_key")
      else
        orgStmt (db.map fun w => if w.id == r.id then orgConflictUpdate w r else w)
          (row.id :: aff) ins (upd + 1) rest
    | none =>
      if db.any (fun w => w.name == r.name) then
        .error (.uniqueViolation "organizations_name_key")
      else
        orgStmt (db ++ [⟨r.id, r.name, r.createdAt⟩]) (r.id :: aff)
          (ins + 1) upd rest

/-- The per-batch loop of `upsertOrganizations`. -/
def orgChunks (db : List OrgRow) (ins upd : Nat) :
    List (List OrgRec) → Except StoreErr (List OrgRow × Nat × Nat)
  | [] => .ok (db, ins, upd)
  | batch :: more =>
    match orgStmt db [] 0 0 batch with
    | .error e => .error e
    | .ok (db', i, u) => orgChunks db' (ins + i) (upd + u) more

/-- Model of `upsertOrganizations` from `app.js`: empty input short-circuits, otherwise
the records are processed in chunks of 100. -/
def upsertOrganizations (db : List OrgRow) (records : List OrgRec) :
    Except StoreErr (List OrgRow × Nat × Nat) :=
  if records.isEmpty then .ok (db, 0, 0)
  else orgChunks db 0 0 (chunkArray records 100)

/-- The incoming `password_hash` parameter computed per user record:
`typeof r.passwordHash === 'string' && r.passwordHash ? r.passwordHash :
typeof r.password === 'string' && r.password ? bcrypt.hashSync(r.password, 10)
: null`. -/
def hashedOf (r : UserRec) : Option String :=
  match r.passwordHash with
  | some s =>
    if !s.isEmpty then some s
    else
      match r.password with
      | some p => if !p.isEmpty then some (bcryptHash p) else none
      | none => none
  | none =>
    match r.password with
    | some p => if !p.isEmpty then some (bcryptHash p) else none
    | none => none

/-- Model of `COALESCE(a, b)` over optional column values. -/
def coalesce (a b : Option String) : Option String :=
  match a with
  | some x => some x
  | none => b

/-- The `SET` list of the id-keyed users upsert conflict branch:
`email, name, role, organization_id` are overwritten and
`password_hash = COALESCE(EXCLUDED.password_hash, users.password_hash)`. -/
def userConflictUpdateById (row : UserRow) (r : UserRec) : UserRow :=
  { row with
    email := r.email
    name := r.name
    role := r.role
    organization_id := r.organizationId
    password_hash := coalesce (hashedOf r) row.password_hash }

/-- The `SET` list of the email-keyed users upsert conflict branch: as the
id-keyed one but the conflict key `email` is not overwritten. -/
def userConflictUpdateByEmail (row : UserRow) (r : UserRec) : UserRow :=
  { row with
    name := r.name
    role := r.role
    organization_id := r.organizationId
    password_hash := coalesce (hashedOf r) row.password_hash }

/-- One batched `INSERT .. ON CONFLICT (id) DO UPDATE` statement of
`upsertUsersById`. A `null` id violates the primary key's NOT NULL (records
reaching this pass always carry one); overwriting or inserting an `email`
held by a different row violates the `users.email` UNIQUE constraint. -/
def userByIdStmt (db : List UserRow) (aff : List String) (ins upd : Nat) :
    List UserRec → Except StoreErr (List UserRow × Nat × Nat)
  | [] => .ok (db, ins, upd)
  | r :: rest =>
    match r.id with
    | none => .error (.notNullViolation "users.id")
    | some rid =>
      match db.find? (fun w => w.id == rid) with
      | some row =>
        if aff.contains row.id then .error .affectRowTwice
        else if db.any (fun w => !(w.id == rid) && w.email == r.email) then
          .error (.uniqueViolation "users_email_key")
        else
          userByIdStmt
            (db.map fun w => if w.id == rid then userConflictUpdateById w r else w)
            (row.id :: aff) ins (upd + 1) rest
      | none =>
        if db.any (fun w => w.email == r.email) then
          .error (.uniqueViolation "users_email_key")
        else
          userByIdStmt
            (db ++ [⟨rid, r.email, r.name, r.role, r.organizationId,
              r.createdAt, hashedOf r⟩])
            (rid :: aff) (ins + 1) upd rest

/-- The per-batch loop of `upsertUsersById`. -/
def userByIdChunks (db : List UserRow) (ins upd : Nat) :
    List (List UserRec) → Except StoreErr (List UserRow × Nat × Nat)
  | [] => .ok (db, ins, upd)
  | batch :: more =>
    match userByIdStmt db [] 0 0 batch with
    | .error e => .error e
    | .ok (db', i, u) => userByIdChunks db' (ins + i) (upd + u) more

/-- Model of `upsertUsersById` from `app.js`. -/
def upsertUsersById (db : List UserRow) (records : List UserRec) :
    Except StoreErr (List UserRow × Nat × Nat) :=
  if records.isEmpty then .ok (db, 0, 0)
  else userByIdChunks db 0 0 (chunkArray records 100)

/-- The `withIds` map of `upsertUsersByEmail`:
`id: r.id && isUUIDv4(r.id) ? r.id : randomUUID()` (a truthy valid id string
is kept — `isUUIDv4` already rejects the empty string — otherwise a fresh
UUID is drawn). -/
def assignUserIds (g : Nat) : List UserRec → List UserRec × Nat
  | [] => ([], g)
  | r :: rest =>
    let idg : String × Nat :=
      match r.id with
      | some i => if isUUIDv4 i then (i, g) else (genUUID g, g + 1)
      | none => (genUUID g, g + 1)
    let res := assignUserIds idg.2 rest
    ({ r with id := some idg.1 } :: res.1, res.2)

/-- One batched `INSERT .. ON CONFLICT (email) DO UPDATE` statement of
`upsertUsersByEmail` (records already carry assigned ids). Inserting an id
held by an existing row violates the primary key. -/
def userByEmailStmt (db : List UserRow) (aff : List String) (ins upd : Nat) :
    List UserRec → Except StoreErr (List UserRow × Nat × Nat)
  | [] => .ok (db, ins, upd)
  | r :: rest =>
    match r.id with
    | none => .error (.notNullViolation "users.id")
    | some rid =>
      match db.find? (fun w => w.email == r.email) with
      | some row =>
        if aff.contains row.id then .error .affectRowTwice
        else
          userByEmailStmt
            (db.map fun w =>
              if w.id == row.id then userConflictUpdateByEmail w r else w)
            (row.id :: aff) ins (upd + 1) rest
      | none =>
        if db.any (fun w => w.id == rid) then
          .error (.uniqueViolation "users_pkey")
        else
          userByEmailStmt
            (db ++ [⟨rid, r.email, r.name, r.role, r.organizationId,
              r.createdAt, hashedOf r⟩])
            (rid :: aff) (ins + 1) upd rest

/-- The per-batch loop of `upsertUsersByEmail`: ids are assigned per batch
(threading the UUID counter), then the statement runs. -/
def userByEmailChunks (g : Nat) (db : List UserRow) (ins upd : Nat) :
    List (List UserRec) → Except StoreErr (List UserRow × Nat × Nat) × Nat
  | [] => (.ok (db, ins, upd), g)
  | batch :: more =>
    let withIds := assignUserIds g batch
    match userByEmailStmt db [] 0 0 withIds.1 with
    | .error e => (.error e, withIds.2)
    | .ok (db', i, u) => userByEmailChunks withIds.2 db' (ins + i) (upd + u) more

/-- Model of `upsertUsersByEmail` from `app.js`. -/
def upsertUsersByEmail (g : Nat) (db : List UserRow) (records : List UserRec) :
    Except StoreErr (List UserRow × Nat × Nat) × Nat :=
  if records.isEmpty then (.ok (db, 0, 0), g)
  else userByEmailChunks g db 0 0 (chunkArray records 100)

/-- The `SET` list of the resources upsert conflict branch: everything but
`created_at` is overwritten. -/
def resConflictUpdate (row : ResRow) (r : ResRec) : ResRow :=
  { row with
    provider := r.provider
    type := r.type
    name := r.name
    tags := r.tags
    cost := r.cost
    status := r.status }

/-- One batched `INSERT .. ON CONFLICT (id) DO UPDATE` statement of
`upsertResources`. A provider outside the closed set violates the table's
CHECK constraint. -/
def resStmt (db : List ResRow) (aff : List String) (ins upd : Nat) :
    List ResRec → Except StoreErr (List ResRow × Nat × Nat)
  | [] => .ok (db, ins, upd)
  | r :: rest =>
    if !allowedProviders.contains r.provider then
      .error (.checkViolation "resources_provider_check")
    else
      match db.find? (fun w => w.id == r.id) with
      | some row =>
        if aff.contains row.id then .error .affectRowTwice
        else
          resStmt (db.map fun w => if w.id == r.id then resConflictUpdate w r else w)
            (row.id :: aff) ins (upd + 1) rest
      | none =>
        resStmt
          (db ++ [⟨r.id, r.provider, r.type, r.name, r.tags, r.cost, r.status,
            r.createdAt⟩])
          (r.id :: aff) (ins + 1) upd rest

/-- The per-batch loop of `upsertResources`. -/
def resChunks (db : List ResRow) (ins upd : Nat) :
    List (List ResRec) → Except StoreErr (List ResRow × Nat × Nat)
  | [] => .ok (db, ins, upd)
  | batch :: more =>
    match resStmt db [] 0 0 batch with
    | .error e => .error e
    | .ok (db', i, u) => resChunks db' (ins + i) (upd + u) more

/-- Model of `upsertResources` from `app.js`. -/
def upsertResources (db : List ResRow) (records : List ResRec) :
    Except StoreErr (List ResRow × Nat × Nat) :=
  if records.isEmpty then .ok (db, 0, 0)
  else resChunks db 0 0 (chunkArray records 100)

/-- The list `ENTITIES` from `app.js`. -/
def ENTITIES : List String := ["users", "organizations", "resources"]

/-- The `bodyRecords` argument of `seedEntity`: absent (`undefined`), present
but not an array, or an array. -/
inductive BodyArg where
  | noBody : BodyArg
  | notArray : BodyArg
  | arr (records : List RawRecord) : BodyArg
  deriving DecidableEq, Repr

/-- The ternary `Array.isArray(bodyRecords) && bodyRecords.length > 0 ? bodyRecords :
loadEntityFromProjdefn(entity)`: only a nonempty array body is the source;
anything else falls back to the fixture loader's records. -/
def selectSource (body : BodyArg) (fixture : List RawRecord) : List RawRecord :=
  match body with
  | .arr (r :: rs) => r :: rs
  | _ => fixture

/-- The result shape of `seedEntity`. -/
structure SeedResult where
  inserted : Nat
  updated : Nat
  skipped : Nat
  errors : List NormErr
  deriving DecidableEq, Repr

/-- The sentinel result `seedEntity` returns for an unsupported entity. -/
def unsupportedEntityResult (entity : String) : SeedResult :=
  ⟨0, 0, 0, [⟨-1, "Unsupported entity: " ++ entity⟩]⟩

/-- Model of `seedEntity(entity, bodyRecords)` from `app.js`, over a fixture loader
`fixtures` (the pure view of `loadEntityFromProjdefn`), the current time
`now`, the UUID counter `g` and the store `db`. `ensureSchema()` is the
identity here (the schema is the row types). A store error propagates as an
operation failure; otherwise the result, the new store and the new counter
are returned. -/
def seedEntity (fixtures : String → List RawRecord) (now : Int) (g : Nat)
    (entity : String) (body : BodyArg) (db : DB) :
    Except StoreErr (SeedResult × DB × Nat) :=
  if !ENTITIES.contains entity then
    .ok (unsupportedEntityResult entity, db, g)
  else
    let src := selectSource body (fixtures entity)
    match entity with
    | "organizations" =>
      let vr := validateAndNormalizeOrganizations now g (.arr src)
      match upsertOrganizations db.orgs vr.1 with
      | .error e => .error e
      | .ok (rows, ins, upd) =>
        .ok (⟨ins, upd, vr.2.1.length, vr.2.1.take 10⟩,
          { db with orgs := rows }, vr.2.2)
    | "users" =>
      let vr := validateAndNormalizeUsers now g (.arr src)
      let withId := vr.1.filter (fun u => u.hadId)
      let withoutId := vr.1.filter (fun u => !u.hadId)
      match upsertUsersById db.users withId with
      | .error e => .error e
      | .ok (rows1, i1, u1) =>
        match upsertUsersByEmail vr.2.2 rows1 withoutId with
        | (.error e, _) => .error e
        | (.ok (rows2, i2, u2), g2) =>
          .ok (⟨i1 + i2, u1 + u2, vr.2.1.length, vr.2.1.take 10⟩,
            { db with users := rows2 }, g2)
    | "resources" =>
      let vr := validateAndNormalizeResources now g (.arr src)
      match upsertResources db.resources vr.1 with
      | .error e => .error e
      | .ok (rows, ins, upd) =>
        .ok (⟨ins, upd, vr.2.1.length, vr.2.1.take 10⟩,
          { db with resources := rows }, vr.2.2)
    | _ =>
      -- dead branch: the ENTITIES guard above already caught this entity
      .ok (unsupportedEntityResult entity, db, g)

/-- The normalization error list `seedEntity` sees for a given entity and
source list (the `errors` component of `validateAndNormalize`). -/
def normErrors (now : Int) (g : Nat) (entity : String)
    (src : List RawRecord) : List NormErr :=
  if entity == "organizations" then
    (validateAndNormalizeOrganizations now g (.arr src)).2.1
  else if entity == "users" then
    (validateAndNormalizeUsers now g (.arr src)).2.1
  else if entity == "resources" then
    (validateAndNormalizeResources now g (.arr src)).2.1
  else []

/-- An HTTP-level outcome of the seed controller: a 200 payload carrying a
`SeedResult`, or an error response with its status code and stable error
code. -/
inductive SeedHttp where
  | ok200 (result : SeedResult) : SeedHttp
  | err (status : Nat) (errorCode : String) : SeedHttp
  deriving DecidableEq, Repr

/-- The coercion `Array.isArray(req.body) ? req.body : undefined` of the controller. -/
def coerceBody : BodyArg → BodyArg
  | .arr l => .arr l
  | _ => .noBody

/-- Model of `seedOne` from `controllers/seed.js`: an entity outside `ENTITIES` is
rejected up front with a 400 `invalid_entity` response (no seeding runs); a
store failure maps to a 500 `internal_error`; otherwise the service result is
returned with status 200. -/
def seedOne (fixtures : String → List RawRecord) (now : Int) (g : Nat)
    (entity : String) (body : BodyArg) (db : DB) : SeedHttp × DB × Nat :=
  if !ENTITIES.contains entity then
    (.err 400 "invalid_entity", db, g)
  else
    match seedEntity fixtures now g entity (coerceBody body) db with
    | .ok (r, db', g') => (.ok200 r, db', g')
    | .error _ => (.err 500 "internal_error", db, g)

/-- Decidable equality on `Except` outcomes (used to evaluate the model at
concrete inputs). -/
instance instDecEqExcept {ε α : Type} [DecidableEq ε] [DecidableEq α] :
    DecidableEq (Except ε α)
  | .ok x, .ok y =>
    if h : x = y then .isTrue (congrArg Except.ok h)
    else .isFalse (fun he => h (Except.ok.inj he))
  | .error x, .error y =>
    if h : x = y then .isTrue (congrArg Except.error h)
    else .isFalse (fun he => h (Except.error.inj he))
  | .ok _, .error _ => .isFalse (fun he => Except.noConfusion he)
  | .error _, .ok _ => .isFalse (fun he => Except.noConfusion he)

/-- A concrete organization record with a non-string `name`: rejected by
normalization with `"Invalid organization.name"`. -/
def badOrgRaw : RawRecord := { name := .vnum 3 }

/-- A concrete organization record whose supplied id is not a valid v4
UUID. -/
def invalidIdOrgRaw : RawRecord :=
  { id := .vstr "not-a-uuid", name := .vstr "Acme" }

/-- The seed result for seeding `[badOrgRaw]` as organizations. -/
def badOrgSeedResult : SeedResult :=
  ⟨0, 0, 1, [⟨0, "Invalid organization.name"⟩]⟩

/-- The resource record of the spec's Scenario C: valid, but with no supplied
id. -/
def scenarioCResource : RawRecord :=
  { provider := .vstr "AWS", type := .vstr "EC2", name := .vstr "web-01",
    status := .vstr "running" }

/-- The `resources` row produced for `scenarioCResource` under the `n`-th
generated UUID. -/
def scenarioCRow (n : Nat) : ResRow :=
  ⟨genUUID n, "AWS", "EC2", "web-01", [], 0, "running", 0⟩

/-- A concrete user record with an invalid (non-UUID) `organizationId`. -/
def invalidOrgIdUserRaw : RawRecord :=
  { email := .vstr "a@b.co", name := .vstr "Al", role := .vstr "admin",
    organizationId := .vstr "org-1" }

/-- A concrete stored users row carrying a password hash. -/
def storedUserRow : UserRow :=
  ⟨"550e8400-e29b-41d4-a716-446655440000", "a@b.co", "Al", "admin", none, 0,
    some "oldhash"⟩

/-- A concrete re-submitted normalized user record carrying neither
`password` nor `passwordHash`. -/
def resubmittedUserRec : UserRec :=
  ⟨some "550e8400-e29b-41d4-a716-446655440000", "a@b.co", "Al", "admin", none,
    0, true, none, none⟩

/-! ## Helper lemmas -/

theorem vOrgsGo_partition (now : Int) :
    ∀ (l : List RawRecord) (idx : Int) (g : Nat),
      (vOrgsGo now idx g l).1.length + (vOrgsGo now idx g l).2.1.length =
        l.length := by
  intro l
  induction l with
  | nil => intro idx g; simp [vOrgsGo]
  | cons rv rest ih =>
    intro idx g
    rcases h : normOrg now g rv with ⟨res | res, g'⟩ <;>
      simp only [vOrgsGo, h, List.length_cons] <;>
      rw [← ih (idx + 1) g'] <;> omega

theorem vUsersGo_partition (now : Int) :
    ∀ (l : List RawRecord) (idx : Int) (g : Nat),
      (vUsersGo now idx g l).1.length + (vUsersGo now idx g l).2.1.length =
        l.length := by
  intro l
  induction l with
  | nil => intro idx g; simp [vUsersGo]
  | cons rv rest ih =>
    intro idx g
    rcases h : normUser now g rv with ⟨res | res, g'⟩ <;>
      simp only [vUsersGo, h, List.length_cons] <;>
      rw [← ih (idx + 1) g'] <;> omega

theorem vResGo_partition (now : Int) :
    ∀ (l : List RawRecord) (idx : Int) (g : Nat),
      (vResGo now idx g l).1.length + (vResGo now idx g l).2.1.length =
        l.length := by
  intro l
  induction l with
  | nil => intro idx g; simp [vResGo]
  | cons rv rest ih =>
    intro idx g
    rcases h : normRes now g rv with ⟨res | res, g'⟩ <;>
      simp only [vResGo, h, List.length_cons] <;>
      rw [← ih (idx + 1) g'] <;> omega

theorem vOrgsGo_err_index_ge (now : Int) :
    ∀ (l : List RawRecord) (idx : Int) (g : Nat),
      ∀ e ∈ (vOrgsGo now idx g l).2.1, idx ≤ e.index := by
  intro l
  induction l with
  | nil => intro idx g; simp [vOrgsGo]
  | cons rv rest ih =>
    intro idx g
    rcases h : normOrg now g rv with ⟨res | res, g'⟩ <;>
      simp only [vOrgsGo, h, List.mem_cons]
    · rintro e (rfl | he)
      · simp
      · have := ih (idx + 1) g' e he; omega
    · intro e he
      have := ih (idx + 1) g' e he; omega

theorem vOrgsGo_err_sorted (now : Int) :
    ∀ (l : List RawRecord) (idx : Int) (g : Nat),
      List.Pairwise (fun a b => a.index < b.index) (vOrgsGo now idx g l).2.1 := by
  intro l
  induction l with
  | nil => intro idx g; simp [vOrgsGo]
  | cons rv rest ih =>
    intro idx g
    rcases h : normOrg now g rv with ⟨res | res, g'⟩ <;>
      simp only [vOrgsGo, h]
    · exact List.Pairwise.cons
        (fun e he => by have := vOrgsGo_err_index_ge now rest (idx + 1) g' e he; simp; omega)
        (ih (idx + 1) g')
    · exact ih (idx + 1) g'

theorem vUsersGo_err_index_ge (now : Int) :
    ∀ (l : List RawRecord) (idx : Int) (g : Nat),
      ∀ e ∈ (vUsersGo now idx g l).2.1, idx ≤ e.index := by
  intro l
  induction l with
  | nil => intro idx g; simp [vUsersGo]
  | cons rv rest ih =>
    intro idx g
    rcases h : normUser now g rv with ⟨res | res, g'⟩ <;>
      simp only [vUsersGo, h, List.mem_cons]
    · rintro e (rfl | he)
      · simp
      · have := ih (idx + 1) g' e he; omega
    · intro e he
      have := ih (idx + 1) g' e he; omega

theorem vUsersGo_err_sorted (now : Int) :
    ∀ (l : List RawRecord) (idx : Int) (g : Nat),
      List.Pairwise (fun a b => a.index < b.index) (vUsersGo now idx g l).2.1 := by
  intro l
  induction l with
  | nil => intro idx g; simp [vUsersGo]
  | cons rv rest ih =>
    intro idx g
    rcases h : normUser now g rv with ⟨res | res, g'⟩ <;>
      simp only [vUsersGo, h]
    · exact List.Pairwise.cons
        (fun e he => by have := vUsersGo_err_index_ge now rest (idx + 1) g' e he; simp; omega)
        (ih (idx + 1) g')
    · exact ih (idx + 1) g'

theorem vResGo_err_index_ge (now : Int) :
    ∀ (l : List RawRecord) (idx : Int) (g : Nat),
      ∀ e ∈ (vResGo now idx g l).2.1, idx ≤ e.index := by
  intro l
  induction l with
  | nil => intro idx g; simp [vResGo]
  | cons rv rest ih =>
    intro idx g
    rcases h : normRes now g rv with ⟨res | res, g'⟩ <;>
      simp only [vResGo, h, List.mem_cons]
    · rintro e (rfl | he)
      · simp
      · have := ih (idx + 1) g' e he; omega
    · intro e he
      have := ih (idx + 1) g' e he; omega

theorem vResGo_err_sorted (now : Int) :
    ∀ (l : List RawRecord) (idx : Int) (g : Nat),
      List.Pairwise (fun a b => a.index < b.index) (vResGo now idx g l).2.1 := by
  intro l
  induction l with
  | nil => intro idx g; simp [vResGo]
  | cons rv rest ih =>
    intro idx g
    rcases h : normRes now g rv with ⟨res | res, g'⟩ <;>
      simp only [vResGo, h]
    · exact List.Pairwise.cons
        (fun e he => by have := vResGo_err_index_ge now rest (idx + 1) g' e he; simp; omega)
        (ih (idx + 1) g')
    · exact ih (idx + 1) g'

/-! ## Claim theorems -/

/-- C7: for every entity kind in {organizations, users, resources}, a
non-array records payload yields exactly one structural error entry with
index −1 (`payloadNotArrayErr = ⟨-1, "Records payload must be an array"⟩`)
and an empty valid-record list, attempting no record-level validation (the
UUID counter is returned untouched). -/
theorem validateAndNormalize_notArray_single_structural_error
    (now : Int) (g : Nat) :
    validateAndNormalizeOrganizations now g .notArray =
      ([], [payloadNotArrayErr], g) ∧
    validateAndNormalizeUsers now g .notArray = ([], [payloadNotArrayErr], g) ∧
    validateAndNormalizeResources now g .notArray =
      ([], [payloadNotArrayErr], g) ∧
    payloadNotArrayErr.index = -1 :=
  ⟨rfl, rfl, rfl, rfl⟩

/-- C8: for every supported entity kind and every array input, normalization
partitions the input — each record contributes to exactly one of the valid
list or the error list, so the lengths sum to the input length. -/
theorem normalization_partitions_input (now : Int) (g : Nat)
    (l : List RawRecord) :
    (validateAndNormalizeOrganizations now g (.arr l)).1.length +
        (validateAndNormalizeOrganizations now g (.arr l)).2.1.length =
      l.length ∧
    (validateAndNormalizeUsers now g (.arr l)).1.length +
        (validateAndNormalizeUsers now g (.arr l)).2.1.length = l.length ∧
    (validateAndNormalizeResources now g (.arr l)).1.length +
        (validateAndNormalizeResources now g (.arr l)).2.1.length = l.length :=
  ⟨vOrgsGo_partition now l 0 g, vUsersGo_partition now l 0 g,
    vResGo_partition now l 0 g⟩

/-- C5: the caller-visible seeding operation (`seedOne` in
`controllers/seed.js`) rejects an unsupported entity kind up front with a
400 `invalid_entity` error response — a failure distinct from per-record
validation errors, never a 200 with a `SeedResult` — leaving the store and
the UUID counter untouched. -/
theorem seedOne_rejects_unsupported_entity
    (fixtures : String → List RawRecord) (now : Int) (g : Nat)
    (entity : String) (body : BodyArg) (db : DB)
    (h : entity ∉ ENTITIES) :
    seedOne fixtures now g entity body db = (.err 400 "invalid_entity", db, g) ∧
    ∀ r : SeedResult,
      (seedOne fixtures now g entity body db).1 ≠ SeedHttp.ok200 r := by
  have hc : ENTITIES.contains entity = false := by
    simpa using h
  refine ⟨by simp [seedOne, hc, h], ?_⟩
  intro r
  simp [seedOne, hc, h]

/-- Witness for C5 at the concrete unsupported entity kind `"projects"`. -/
theorem seedOne_rejects_unsupported_entity_witness :
    "projects" ∉ ENTITIES ∧
    seedOne (fun _ => []) 0 0 "projects" .noBody emptyDB =
      (.err 400 "invalid_entity", emptyDB, 0) := by
  refine ⟨by decide, ?_⟩
  exact (seedOne_rejects_unsupported_entity (fun _ => []) 0 0 "projects"
    .noBody emptyDB (by decide)).1

/-- C4: for a supported entity kind, a nonempty array body is the
normalization source (the fixture loader is not consulted: seeding with body
`r :: rs` under any fixture loader equals seeding with no body under a
fixture loader returning `r :: rs`), while an absent body, a non-array body
and an explicitly empty array body all behave identically — each falls back
to the fixture loader. -/
theorem seedEntity_source_selection
    (fixtures : String → List RawRecord) (now : Int) (g : Nat)
    (entity : String) (db : DB) (hent : entity ∈ ENTITIES) :
    seedEntity fixtures now g entity (.arr []) db =
      seedEntity fixtures now g entity .noBody db ∧
    seedEntity fixtures now g entity .notArray db =
      seedEntity fixtures now g entity .noBody db ∧
    ∀ (r : RawRecord) (rs : List RawRecord),
      seedEntity fixtures now g entity (.arr (r :: rs)) db =
        seedEntity (fun _ => r :: rs) now g entity .noBody db := by
  have h3 : entity = "users" ∨ entity = "organizations" ∨
      entity = "resources" := by simpa [ENTITIES] using hent
  rcases h3 with rfl | rfl | rfl <;>
    exact ⟨rfl, rfl, fun r rs => rfl⟩

/-- Witness for C4 at the concrete entity kind `"organizations"`. -/
theorem seedEntity_source_selection_witness :
    "organizations" ∈ ENTITIES ∧
    seedEntity (fun _ => []) 0 0 "organizations" (.arr []) emptyDB =
      seedEntity (fun _ => []) 0 0 "organizations" .noBody emptyDB := by
  refine ⟨by decide, ?_⟩
  exact (seedEntity_source_selection (fun _ => []) 0 0 "organizations" emptyDB
    (by decide)).1

/-- C3: whenever `seedEntity` returns for a supported entity kind, the
`skipped` count equals the total number of normalization errors for the
selected source, and the returned `errors` list is exactly the first
`min(10, total)` error entries, in strictly increasing input-index order. -/
theorem seedEntity_skipped_and_error_truncation
    (fixtures : String → List RawRecord) (now : Int) (g : Nat)
    (entity : String) (body : BodyArg) (db : DB)
    (res : SeedResult) (db' : DB) (g' : Nat)
    (hent : entity ∈ ENTITIES)
    (hok : seedEntity fixtures now g entity body db = .ok (res, db', g')) :
    res.skipped =
      (normErrors now g entity (selectSource body (fixtures entity))).length ∧
    res.errors =
      (normErrors now g entity (selectSource body (fixtures entity))).take 10 ∧
    res.errors.length =
      min 10 (normErrors now g entity (selectSource body (fixtures entity))).length ∧
    List.Pairwise (fun a b => a.index < b.index) res.errors := by
  have h3 : entity = "users" ∨ entity = "organizations" ∨
      entity = "resources" := by simpa [ENTITIES] using hent
  rcases h3 with rfl | rfl | rfl
  · simp only [seedEntity, ENTITIES] at hok
    norm_num at hok
    split at hok
    · exact absurd hok (by simp)
    · split at hok
      · exact absurd hok (by simp)
      · rw [Except.ok.injEq, Prod.mk.injEq, Prod.mk.injEq] at hok
        obtain ⟨hres, -⟩ := hok
        subst hres
        refine ⟨rfl, rfl, List.length_take .., ?_⟩
        exact List.Pairwise.sublist (List.take_sublist _ _)
          (by simpa [normErrors, validateAndNormalizeUsers] using
            vUsersGo_err_sorted now (selectSource body (fixtures "users")) 0 g)
  · simp only [seedEntity, ENTITIES] at hok
    norm_num at hok
    split at hok
    · exact absurd hok (by simp)
    · rw [Except.ok.injEq, Prod.mk.injEq, Prod.mk.injEq] at hok
      obtain ⟨hres, -⟩ := hok
      subst hres
      refine ⟨rfl, rfl, List.length_take .., ?_⟩
      exact List.Pairwise.sublist (List.take_sublist _ _)
        (by simpa [normErrors, validateAndNormalizeOrganizations] using
          vOrgsGo_err_sorted now (selectSource body (fixtures "organizations")) 0 g)
  · simp only [seedEntity, ENTITIES] at hok
    norm_num at hok
    split at hok
    · exact absurd hok (by simp)
    · rw [Except.ok.injEq, Prod.mk.injEq, Prod.mk.injEq] at hok
      obtain ⟨hres, -⟩ := hok
      subst hres
      refine ⟨rfl, rfl, List.length_take .., ?_⟩
      exact List.Pairwise.sublist (List.take_sublist _ _)
        (by simpa [normErrors, validateAndNormalizeResources] using
          vResGo_err_sorted now (selectSource body (fixtures "resources")) 0 g)

/-- Witness for C3: seeding organizations with the single invalid record
`badOrgRaw` returns `skipped = 1` and the one error entry at index 0. -/
theorem seedEntity_skipped_and_error_truncation_witness :
    "organizations" ∈ ENTITIES ∧
    badOrgSeedResult.skipped =
      (normErrors 0 0 "organizations"
        (selectSource (.arr [badOrgRaw]) ((fun _ => []) "organizations"))).length ∧
    badOrgSeedResult.errors =
      (normErrors 0 0 "organizations"
        (selectSource (.arr [badOrgRaw]) ((fun _ => []) "organizations"))).take 10 ∧
    badOrgSeedResult.errors.length =
      min 10 (normErrors 0 0 "organizations"
        (selectSource (.arr [badOrgRaw]) ((fun _ => []) "organizations"))).length ∧
    List.Pairwise (fun a b => a.index < b.index) badOrgSeedResult.errors := by
  refine ⟨by decide, ?_⟩
  exact seedEntity_skipped_and_error_truncation (fun _ => []) 0 0
    "organizations" (.arr [badOrgRaw]) emptyDB badOrgSeedResult emptyDB 1
    (by decide) (by decide)

/-- C6: a supplied id that is not a valid version-4 UUID string is treated as
absent (`validIdField` is the code's test). For organizations and resources an
absent id draws a freshly generated identifier immediately (the counter
bumps); a kept id leaves the counter alone. For users no id is ever generated
at normalization time (the counter is always returned unchanged): the record
instead carries the `hadId` marker — on which `seedEntity` later splits the
valid records into the id-keyed and email-keyed upsert passes — and a
deferred `id` that is `some` exactly when a valid id was supplied. -/
theorem normalization_id_handling (now : Int) (g : Nat) (rv : RawRecord) :
    ((validIdField rv.id = true →
        (normOrg now g rv).2 = g ∧
        ∀ rec, (normOrg now g rv).1 = .ok rec → rec.id = rv.id.str) ∧
     (validIdField rv.id = false →
        (normOrg now g rv).2 = g + 1 ∧
        ∀ rec, (normOrg now g rv).1 = .ok rec → rec.id = genUUID g)) ∧
    ((validIdField rv.id = true →
        (normRes now g rv).2 = g ∧
        ∀ rec, (normRes now g rv).1 = .ok rec → rec.id = rv.id.str) ∧
     (validIdField rv.id = false →
        (normRes now g rv).2 = g + 1 ∧
        ∀ rec, (normRes now g rv).1 = .ok rec → rec.id = genUUID g)) ∧
    ((normUser now g rv).2 = g ∧
     ∀ rec, (normUser now g rv).1 = .ok rec →
       rec.hadId = validIdField rv.id ∧
       rec.id = if validIdField rv.id then some rv.id.str else none) := by
  refine ⟨⟨?_, ?_⟩, ⟨?_, ?_⟩, ?_, ?_⟩
  · intro h
    cases hn : strFieldOk rv.name <;> simp [normOrg, h, hn]
  · intro h
    cases hn : strFieldOk rv.name <;> simp [normOrg, h, hn]
  · intro h
    simp only [normRes, h, if_true]
    split
    · split
      · split
        · split
          · exact ⟨rfl, by rintro rec hr; cases hr; rfl⟩
          · exact ⟨rfl, by rintro rec hr; cases hr⟩
        · exact ⟨rfl, by rintro rec hr; cases hr⟩
      · exact ⟨rfl, by rintro rec hr; cases hr⟩
    · exact ⟨rfl, by rintro rec hr; cases hr⟩
  · intro h
    simp only [normRes, h, if_false, Bool.false_eq_true]
    split
    · split
      · split
        · split
          · exact ⟨rfl, by rintro rec hr; cases hr; rfl⟩
          · exact ⟨rfl, by rintro rec hr; cases hr⟩
        · exact ⟨rfl, by rintro rec hr; cases hr⟩
      · exact ⟨rfl, by rintro rec hr; cases hr⟩
    · exact ⟨rfl, by rintro rec hr; cases hr⟩
  · cases he : isEmail rv.email <;>
      cases hn : strFieldOk rv.name <;>
      cases hr : strFieldOk rv.role <;>
      simp [normUser, he, hn, hr]
  · cases he : isEmail rv.email <;>
      cases hn : strFieldOk rv.name <;>
      cases hr : strFieldOk rv.role <;>
      simp [normUser, he, hn, hr]

/-- Witness for C6 at a record with a concrete invalid (non-UUID) id: the
organization normalizer generates the fresh id `genUUID 0` and bumps the
counter. -/
theorem normalization_id_handling_witness :
    validIdField (JVal.vstr "not-a-uuid") = false ∧
    (normOrg 0 0 invalidIdOrgRaw).2 = 0 + 1 ∧
    ∀ rec, (normOrg 0 0 invalidIdOrgRaw).1 = .ok rec → rec.id = genUUID 0 := by
  refine ⟨by decide, ?_⟩
  exact (normalization_id_handling 0 0 invalidIdOrgRaw).1.2 (by decide)

/-- C9: for user records, the validation outcome never depends on the
`organizationId` field (changing it cannot introduce or remove an error, so a
record is never skipped because of it), and a supplied `organizationId` that
is not a valid version-4 UUID string is silently coerced to `null` in the
normalized record. -/
theorem user_organizationId_coerced_silently (now : Int) (g : Nat)
    (rv : RawRecord) :
    (∀ (v : JVal) (m : String),
      (normUser now g { rv with organizationId := v }).1 = .error m ↔
        (normUser now g rv).1 = .error m) ∧
    (validIdField rv.organizationId = false →
      ∀ rec, (normUser now g rv).1 = .ok rec → rec.organizationId = none) := by
  obtain ⟨i, n, e, r, o, c, p, ph, pr, t, tg, co, st⟩ := rv
  constructor
  · intro v m
    cases he : isEmail e <;> cases hn : strFieldOk n <;>
      cases hr : strFieldOk r <;>
      simp [normUser, he, hn, hr]
  · intro h rec
    cases he : isEmail e <;> cases hn : strFieldOk n <;>
      cases hr : strFieldOk r <;>
      simp [normUser, he, hn, hr, h]
    rintro rfl
    rfl

/-- Witness for C9: a concrete user record with `organizationId` set to the
invalid string `"org-1"` normalizes successfully with `organizationId =
none`. -/
theorem user_organizationId_coerced_silently_witness :
    validIdField invalidOrgIdUserRaw.organizationId = false ∧
    ∀ rec, (normUser 0 0 invalidOrgIdUserRaw).1 = .ok rec →
      rec.organizationId = none := by
  refine ⟨by decide, ?_⟩
  exact (user_organizationId_coerced_silently 0 0 invalidOrgIdUserRaw).2
    (by decide)

/-- C10: normalization reports exactly one error per rejected user record,
chosen by the fixed priority email, then name, then role; in particular a
record with an invalid email yields precisely the single error entry
`⟨index, "Invalid user.email"⟩` whatever its other fields. -/
theorem user_validation_error_priority (now : Int) (g : Nat) (rv : RawRecord) :
    (isEmail rv.email = false →
      normUser now g rv = (.error "Invalid user.email", g) ∧
      validateAndNormalizeUsers now g (.arr [rv]) =
        ([], [⟨0, "Invalid user.email"⟩], g)) ∧
    (isEmail rv.email = true → strFieldOk rv.name = false →
      normUser now g rv = (.error "Invalid user.name", g)) ∧
    (isEmail rv.email = true → strFieldOk rv.name = true →
      strFieldOk rv.role = false →
      normUser now g rv = (.error "Invalid user.role", g)) := by
  refine ⟨?_, ?_, ?_⟩
  · intro he
    have h1 : normUser now g rv = (.error "Invalid user.email", g) := by
      simp [normUser, he]
    exact ⟨h1, by simp [validateAndNormalizeUsers, vUsersGo, h1]⟩
  · intro he hn
    simp [normUser, he, hn]
  · intro he hn hr
    simp [normUser, he, hn, hr]

/-- Witness for C10: a record with both an invalid email and a missing name
yields only the email error, at index 0. -/
theorem user_validation_error_priority_witness :
    isEmail (JVal.vstr "bad-email") = false ∧
    validateAndNormalizeUsers 0 0
        (.arr [{ email := .vstr "bad-email" }]) =
      ([], [⟨0, "Invalid user.email"⟩], 0) := by
  refine ⟨by decide, ?_⟩
  exact ((user_validation_error_priority 0 0
    { email := .vstr "bad-email" }).1 (by decide)).2

/-- C2: in both user upsert passes, the conflict branch leaves the stored
`password_hash` exactly as it was when the incoming record carries neither a
`password` nor a `passwordHash` (the incoming hash parameter is `null` and
`COALESCE` keeps the stored value), and — for any incoming record — an upsert
never clears a stored hash to `null`. -/
theorem users_upsert_preserves_password_hash (row : UserRow) (r : UserRec)
    (hp : r.password = none) (hph : r.passwordHash = none) :
    (userConflictUpdateById row r).password_hash = row.password_hash ∧
    (userConflictUpdateByEmail row r).password_hash = row.password_hash ∧
    ∀ (s : UserRec) (h : String), row.password_hash = some h →
      (userConflictUpdateById row s).password_hash ≠ none ∧
      (userConflictUpdateByEmail row s).password_hash ≠ none := by
  have hz : hashedOf r = none := by simp [hashedOf, hp, hph]
  refine ⟨by simp [userConflictUpdateById, coalesce, hz],
    by simp [userConflictUpdateByEmail, coalesce, hz], ?_⟩
  intro s h hh
  cases hz' : hashedOf s <;>
    simp [userConflictUpdateById, userConflictUpdateByEmail, coalesce, hz', hh]

/-- Witness for C2: re-submitting a stored user's record without password
fields leaves the stored hash `some "oldhash"` untouched in both passes. -/
theorem users_upsert_preserves_password_hash_witness :
    resubmittedUserRec.password = none ∧
    resubmittedUserRec.passwordHash = none ∧
    (userConflictUpdateById storedUserRow resubmittedUserRec).password_hash =
      storedUserRow.password_hash ∧
    (userConflictUpdateByEmail storedUserRow resubmittedUserRec).password_hash =
      storedUserRow.password_hash := by
  refine ⟨rfl, rfl, ?_, ?_⟩
  · exact (users_upsert_preserves_password_hash storedUserRow
      resubmittedUserRec rfl rfl).1
  · exact (users_upsert_preserves_password_hash storedUserRow
      resubmittedUserRec rfl rfl).2.1

/-- C1 (code-bug demonstration): seeding the valid Scenario C resource record
— which supplies no id — twice in succession from an empty store is NOT
idempotent: normalization draws a fresh UUID on each call, so the second call
misses the conflict branch and re-inserts, returning `inserted = 1, updated =
0` where the claim (and the repository's own README, which calls the upserts
"idempotent and safe to run multiple times") requires `inserted = 0, updated
= 1`; the store ends up with two rows for the same record. -/
theorem seedEntity_resources_rerun_reinserts :
    seedEntity (fun _ => []) 0 0 "resources" (.arr [scenarioCResource])
        emptyDB =
      .ok (⟨1, 0, 0, []⟩, ⟨[], [], [scenarioCRow 0]⟩, 1) ∧
    seedEntity (fun _ => []) 0 1 "resources" (.arr [scenarioCResource])
        ⟨[], [], [scenarioCRow 0]⟩ =
      .ok (⟨1, 0, 0, []⟩, ⟨[], [], [scenarioCRow 0, scenarioCRow 1]⟩, 2) := by
  constructor <;> decide
